import Mathlib

/-!
# Verification of the RatioSeriesBuilder (`plot_vehicle_ratios` in `pigmodule.py`)

We give a shallow embedding of the data-transformation core of
`plot_vehicle_ratios(data, vehicle_type, start_year, end_year, exclude_years)`:

1. group input rows by `(road_name, year)` and sum the `vehicle_type` and
   `total_vehicles` columns (`data.groupby(['road_name','year']).agg(...)`) ;
2. compute the ratio column `vehicle_type_sum / total_vehicles_sum`;
3. reindex on the cross product of the observed road names (sorted unique
   group keys) and the years `start_year..end_year` inclusive, so missing
   pairs get an absent ratio;
4. set the ratio to absent for every row whose year is in `exclude_years`;
5. per `road_name` group (years in ascending order), fill absent ratios the
   way `Series.interpolate(method='linear')` does with its defaults: an
   absent entry with known entries on both sides gets the linear
   interpolation of the nearest known neighbours (positions are equally
   spaced, and here consecutive positions are consecutive years); an absent
   entry before the first known entry stays absent (default
   `limit_direction='forward'`); an absent entry after the last known entry
   is filled with the last known value (the `np.interp` clamp that pandas
   keeps at the forward edge).

Numbers are modelled as exact rationals; the source's float arithmetic is
exact on all values the claims mention.  A cell absent from a row reads as 0.
-/

namespace PigModule

/-- One input row: the `road_name` and `year` label columns plus the numeric
cells, keyed by column name (a pandas row restricted to the columns this
function touches). -/
structure Row where
  road_name : String
  year : Int
  cells : List (String × ℚ)
deriving Repr, DecidableEq

/-- Value of a numeric column in a row. -/
def Row.get (w : Row) (c : String) : ℚ :=
  (w.cells.lookup c).getD 0

/-- The input table: its numeric column names and its rows. -/
structure Table where
  cols : List String
  rows : List Row
deriving Repr, DecidableEq

/-- The input rows belonging to the `(road_name, year)` group `(r, y)`. -/
def rowsFor (t : Table) (r : String) (y : Int) : List Row :=
  t.rows.filter (fun w => w.road_name == r && w.year == y)

/-- Whether the group `(r, y)` appears in the grouped table (some input row
has this road name and year). -/
def present (t : Table) (r : String) (y : Int) : Bool :=
  !(rowsFor t r y).isEmpty

/-- Sum of column `c` over the group `(r, y)` — the `agg` sum. -/
def sumCol (t : Table) (c : String) (r : String) (y : Int) : ℚ :=
  ((rowsFor t r y).map (fun w => w.get c)).sum

/-- The ratio computed for group `(r, y)`: summed `vehicle_type` count over
summed `total_vehicles`. -/
def ratioOf (t : Table) (vt : String) (r : String) (y : Int) : ℚ :=
  sumCol t vt r y / sumCol t "total_vehicles" r y

/-- The year axis `range(start_year, end_year + 1)` as a list of integers in
ascending order. -/
def yearsIn (s e : Int) : List Int :=
  (List.range (e + 1 - s).toNat).map (fun (i : Nat) => s + (i : Int))

/-- The observed road names: the distinct `road_name` values, in the sorted
order in which `groupby` (and hence `unique()` on its result) yields them. -/
def roadNames (t : Table) : List String :=
  List.insertionSort (fun a b => a ≤ b) (t.rows.map Row.road_name).dedup

/-- The per-road ratio series over the reindexed year axis, after step 4:
absent where the year is excluded, absent where the group never appeared,
and the computed ratio elsewhere. -/
def rawSeries (t : Table) (vt : String) (s e : Int) (ex : List Int) (r : String) :
    List (Option ℚ) :=
  (yearsIn s e).map (fun y =>
    if y ∈ ex then none
    else if present t r y then some (ratioOf t vt r y) else none)

/-- The pair `(i, a)` when position `i` of the series holds a known value
`a`. -/
def knownAt (xs : List (Option ℚ)) (i : Nat) : Option (Nat × ℚ) :=
  (xs[i]?.bind id).map (fun a => (i, a))

/-- The nearest known entry strictly before position `k` (largest index). -/
def prevKnown (xs : List (Option ℚ)) (k : Nat) : Option (Nat × ℚ) :=
  ((List.range k).filterMap (knownAt xs)).getLast?

/-- The nearest known entry strictly after position `k` (smallest index). -/
def nextKnown (xs : List (Option ℚ)) (k : Nat) : Option (Nat × ℚ) :=
  (((List.range (xs.length - (k + 1))).map (fun d => k + 1 + d)).filterMap
    (knownAt xs)).head?

/-- Value at position `k` after `interpolate(method='linear')` with pandas
defaults: known values are kept; an absent value between known neighbours is
linearly interpolated on the position axis; an absent value with no earlier
known neighbour stays absent; an absent value with an earlier but no later
known neighbour gets the last known value. -/
def interpAt (xs : List (Option ℚ)) (k : Nat) : Option ℚ :=
  match xs[k]? with
  | none => none
  | some (some v) => some v
  | some none =>
    match prevKnown xs k, nextKnown xs k with
    | some (i, a), some (j, b) =>
        some (a + (b - a) * (((k : ℚ) - (i : ℚ)) / ((j : ℚ) - (i : ℚ))))
    | some (_, a), none => some a
    | none, _ => none

/-- The whole series after interpolation. -/
def interpSeries (xs : List (Option ℚ)) : List (Option ℚ) :=
  (List.range xs.length).map (interpAt xs)

/-- The rows of the output table for one road: the year column zipped with
the interpolated ratio column. -/
def roadBlock (t : Table) (vt : String) (s e : Int) (ex : List Int) (r : String) :
    List (String × Int × Option ℚ) :=
  ((yearsIn s e).zip (interpSeries (rawSeries t vt s e ex r))).map
    (fun p => (r, p.1, p.2))

/-- The full output table (the `yearly_totals` frame after interpolation,
restricted to the key columns and the ratio column): one row per
`(road_name, year)` of the complete grid, roads in `roadNames` order, years
ascending within each road. -/
def buildRows (t : Table) (vt : String) (s e : Int) (ex : List Int) :
    List (String × Int × Option ℚ) :=
  (roadNames t).flatMap (fun r => roadBlock t vt s e ex r)

/-- The builder: accessing a `vehicle_type` column (or `total_vehicles`)
that the table does not have fails immediately, before any result is
produced, as the `groupby(...).agg({vehicle_type: 'sum', ...})` call does. -/
def build (t : Table) (vt : String) (s e : Int) (ex : List Int) :
    Except String (List (String × Int × Option ℚ)) :=
  if vt ∈ t.cols ∧ "total_vehicles" ∈ t.cols then
    Except.ok (buildRows t vt s e ex)
  else
    Except.error "MissingColumn"

/-- The ratio recorded in an output row list for the pair `(r, y)`:
`some v` when a row for the pair exists with ratio `v`, `none` when no such
row exists. -/
def valueAt (rows : List (String × Int × Option ℚ)) (r : String) (y : Int) :
    Option (Option ℚ) :=
  ((rows.filter (fun p => p.1 == r && p.2.1 == y)).head?).map (fun p => p.2.2)

/-! Concrete input tables used to instantiate the verified properties. -/

/-- Road "A" with data only at year 2000 (count 1 of 5 vehicles). -/
def tableA1 : Table :=
  ⟨["v", "total_vehicles"],
   [⟨"A", 2000, [("v", 1), ("total_vehicles", 5)]⟩]⟩

/-- Road "A" with data at years 2000 (ratio 1/10), 2001 (ratio 99/100) and
2002 (ratio 3/10). -/
def tableA3 : Table :=
  ⟨["v", "total_vehicles"],
   [⟨"A", 2000, [("v", 10), ("total_vehicles", 100)]⟩,
    ⟨"A", 2001, [("v", 99), ("total_vehicles", 100)]⟩,
    ⟨"A", 2002, [("v", 30), ("total_vehicles", 100)]⟩]⟩

/-- Same as `tableA3` except for the cell values of the year-2001 row. -/
def tableA3' : Table :=
  ⟨["v", "total_vehicles"],
   [⟨"A", 2000, [("v", 10), ("total_vehicles", 100)]⟩,
    ⟨"A", 2001, [("v", 50), ("total_vehicles", 100)]⟩,
    ⟨"A", 2002, [("v", 30), ("total_vehicles", 100)]⟩]⟩

/-- Road "B", year 2010: vehicle count 40 of 200 total. -/
def tableB : Table :=
  ⟨["v", "total_vehicles"],
   [⟨"B", 2010, [("v", 40), ("total_vehicles", 200)]⟩]⟩

/-- Road "C", year 2015, twice: counts 10 of 100 and 15 of 150. -/
def tableC : Table :=
  ⟨["v", "total_vehicles"],
   [⟨"C", 2015, [("v", 10), ("total_vehicles", 100)]⟩,
    ⟨"C", 2015, [("v", 15), ("total_vehicles", 150)]⟩]⟩

/-- Roads "A" and "B", one year each. -/
def tableAB : Table :=
  ⟨["v", "total_vehicles"],
   [⟨"A", 2000, [("v", 1), ("total_vehicles", 2)]⟩,
    ⟨"B", 2000, [("v", 1), ("total_vehicles", 4)]⟩]⟩

/-- Same as `tableAB` except for road "B"'s data. -/
def tableAB' : Table :=
  ⟨["v", "total_vehicles"],
   [⟨"A", 2000, [("v", 1), ("total_vehicles", 2)]⟩,
    ⟨"B", 2000, [("v", 3), ("total_vehicles", 4)]⟩]⟩

/-! ## Structural lemmas about the embedded pipeline -/

theorem yearsIn_length (s e : Int) : (yearsIn s e).length = (e + 1 - s).toNat := by
  simp [yearsIn]

theorem yearsIn_getElem? {s e : Int} {k : Nat} (hk : k < (e + 1 - s).toNat) :
    (yearsIn s e)[k]? = some (s + (k : Int)) := by
  simp [yearsIn, List.getElem?_map, List.getElem?_range hk]

theorem mem_yearsIn {s e y : Int} : y ∈ yearsIn s e ↔ s ≤ y ∧ y ≤ e := by
  simp only [yearsIn, List.mem_map, List.mem_range]
  constructor
  · rintro ⟨i, hi, rfl⟩
    omega
  · rintro ⟨h1, h2⟩
    exact ⟨(y - s).toNat, by omega, by omega⟩

theorem yearsIn_nodup (s e : Int) : (yearsIn s e).Nodup := by
  refine List.Nodup.map ?_ (List.nodup_range _)
  intro a b hab
  have h2 : s + (a : Int) = s + (b : Int) := hab
  omega

theorem rawSeries_length (t : Table) (vt : String) (s e : Int) (ex : List Int) (r : String) :
    (rawSeries t vt s e ex r).length = (e + 1 - s).toNat := by
  simp [rawSeries, yearsIn]

theorem rawSeries_getElem? {t : Table} {vt : String} {s e : Int} {ex : List Int} {r : String}
    {k : Nat} (hk : k < (e + 1 - s).toNat) :
    (rawSeries t vt s e ex r)[k]? =
      some (if s + (k : Int) ∈ ex then none
            else if present t r (s + (k : Int)) then some (ratioOf t vt r (s + (k : Int)))
            else none) := by
  simp [rawSeries, List.getElem?_map, yearsIn_getElem? hk]

theorem interpSeries_length (xs : List (Option ℚ)) :
    (interpSeries xs).length = xs.length := by
  simp [interpSeries]

theorem interpSeries_getElem? {xs : List (Option ℚ)} {k : Nat} (hk : k < xs.length) :
    (interpSeries xs)[k]? = some (interpAt xs k) := by
  simp [interpSeries, List.getElem?_map, List.getElem?_range hk]

theorem interpAt_known {xs : List (Option ℚ)} {k : Nat} {v : ℚ}
    (h : xs[k]? = some (some v)) : interpAt xs k = some v := by
  unfold interpAt
  rw [h]

theorem interpAt_gap {xs : List (Option ℚ)} {k : Nat} (h : xs[k]? = some none) :
    interpAt xs k =
      match prevKnown xs k, nextKnown xs k with
      | some (i, a), some (j, b) =>
          some (a + (b - a) * (((k : ℚ) - (i : ℚ)) / ((j : ℚ) - (i : ℚ))))
      | some (_, a), none => some a
      | none, _ => none := by
  unfold interpAt
  rw [h]

theorem prevKnown_zero (xs : List (Option ℚ)) : prevKnown xs 0 = none := by
  simp [prevKnown]

theorem prevKnown_succ_of_known {xs : List (Option ℚ)} {k : Nat} {z : Nat × ℚ}
    (h : knownAt xs k = some z) : prevKnown xs (k + 1) = some z := by
  rw [prevKnown, List.range_succ, List.filterMap_append]
  simp [h, List.getLast?_concat]

theorem nextKnown_succ_of_known {xs : List (Option ℚ)} {k : Nat} {z : Nat × ℚ}
    (hk : k + 1 < xs.length) (h : knownAt xs (k + 1) = some z) :
    nextKnown xs k = some z := by
  have hlen : xs.length - (k + 1) = (xs.length - (k + 2)) + 1 := by omega
  rw [nextKnown, hlen, List.range_succ_eq_map]
  simp [h]

theorem nextKnown_eq_none {xs : List (Option ℚ)} {k : Nat}
    (h : ∀ j, k < j → (xs[j]?).getD none = none) : nextKnown xs k = none := by
  rw [nextKnown]
  have hall : ∀ i ∈ (List.range (xs.length - (k + 1))).map (fun d => k + 1 + d),
      knownAt xs i = none := by
    intro i hi
    simp only [List.mem_map, List.mem_range] at hi
    obtain ⟨d, _, rfl⟩ := hi
    have hj := h (k + 1 + d) (by omega)
    unfold knownAt
    cases hxi : xs[k + 1 + d]? with
    | none => simp
    | some o =>
      cases o with
      | none => simp
      | some a => rw [hxi] at hj; simp at hj
  rw [List.filterMap_eq_nil_iff.mpr hall]
  rfl

theorem roadNames_nodup (t : Table) : (roadNames t).Nodup :=
  ((List.perm_insertionSort _ _).nodup_iff).mpr (List.nodup_dedup _)

theorem mem_roadNames {t : Table} {r : String} :
    r ∈ roadNames t ↔ r ∈ t.rows.map Row.road_name := by
  rw [roadNames, List.Perm.mem_iff (List.perm_insertionSort _ _), List.mem_dedup]

theorem roadBlock_eq (t : Table) (vt : String) (s e : Int) (ex : List Int) (r : String) :
    roadBlock t vt s e ex r =
      (List.range (e + 1 - s).toNat).map
        (fun (k : Nat) => (r, s + (k : Int), interpAt (rawSeries t vt s e ex r) k)) := by
  have h2 : interpSeries (rawSeries t vt s e ex r) =
      (List.range (e + 1 - s).toNat).map
        (fun k => interpAt (rawSeries t vt s e ex r) k) := by
    rw [interpSeries, rawSeries_length]
  rw [roadBlock, yearsIn, h2, List.zip_map', List.map_map]
  rfl

theorem roadBlock_length (t : Table) (vt : String) (s e : Int) (ex : List Int) (r : String) :
    (roadBlock t vt s e ex r).length = (e + 1 - s).toNat := by
  rw [roadBlock_eq, List.length_map, List.length_range]

theorem filter_flatMap_comm {α β : Type} (l : List α) (f : α → List β) (p : β → Bool) :
    (l.flatMap f).filter p = l.flatMap (fun a => (f a).filter p) := by
  induction l with
  | nil => rfl
  | cons c l ih => simp only [List.flatMap_cons, List.filter_append, ih]

theorem countP_flatMap_sum {α β : Type} (l : List α) (f : α → List β) (p : β → Bool) :
    (l.flatMap f).countP p = (l.map (fun a => (f a).countP p)).sum := by
  induction l with
  | nil => rfl
  | cons c l ih => simp only [List.flatMap_cons, List.countP_append, ih, List.map_cons,
      List.sum_cons]

theorem flatMap_eq_of_single {α β : Type} {l : List α} {f : α → List β} {a : α}
    (hn : l.Nodup) (ha : a ∈ l) (h0 : ∀ b ∈ l, b ≠ a → f b = []) :
    l.flatMap f = f a := by
  induction l with
  | nil => cases ha
  | cons c l ih =>
    rw [List.nodup_cons] at hn
    rcases List.mem_cons.mp ha with rfl | ha'
    · rw [List.flatMap_cons, List.flatMap_eq_nil_iff.mpr
        (fun b hb => h0 b (List.mem_cons_of_mem _ hb)
          (fun hba => hn.1 (hba ▸ hb))), List.append_nil]
    · have hca : c ≠ a := fun h => hn.1 (h ▸ ha')
      rw [List.flatMap_cons, h0 c (List.mem_cons_self _ _) hca, List.nil_append]
      exact ih hn.2 ha' (fun b hb => h0 b (List.mem_cons_of_mem _ hb))

theorem filter_beq_of_nodup {l : List Nat} (hn : l.Nodup) {a : Nat} (ha : a ∈ l) :
    l.filter (fun k => k == a) = [a] := by
  induction l with
  | nil => cases ha
  | cons c l ih =>
    rw [List.nodup_cons] at hn
    rcases List.mem_cons.mp ha with rfl | ha'
    · rw [List.filter_cons_of_pos (by simp)]
      rw [List.filter_eq_nil_iff.mpr ?_]
      intro b hb
      simp only [beq_iff_eq, Bool.not_eq_true, decide_eq_false_iff_not]
      exact fun hbc => hn.1 (hbc ▸ hb)
    · have hca : (c == a) = false := by
        simp only [beq_eq_false_iff_ne, ne_eq]
        exact fun h => hn.1 (h ▸ ha')
      rw [List.filter_cons_of_neg (by simp [hca]), ih hn.2 ha']

theorem countP_range_beq (n a : Nat) :
    (List.range n).countP (fun k => k == a) = if a < n then 1 else 0 := by
  rw [← List.count_eq_countP]
  by_cases h : a < n
  · rw [if_pos h, List.count_eq_one_of_mem (List.nodup_range n) (List.mem_range.mpr h)]
  · rw [if_neg h, List.count_eq_zero_of_not_mem (fun hm => h (List.mem_range.mp hm))]

theorem sum_map_ite_one {α : Type} [DecidableEq α] {l : List α} (hn : l.Nodup) (a : α) :
    (l.map (fun b => if b = a then 1 else 0)).sum = if a ∈ l then 1 else 0 := by
  induction l with
  | nil => rfl
  | cons c l ih =>
    rw [List.nodup_cons] at hn
    rw [List.map_cons, List.sum_cons, ih hn.2]
    by_cases hc : c = a
    · subst hc
      rw [if_pos rfl, if_pos (List.mem_cons_self _ _),
        if_neg (fun h => hn.1 h), Nat.add_zero]
    · rw [if_neg hc]
      by_cases hm : a ∈ l
      · rw [if_pos hm, if_pos (List.mem_cons_of_mem _ hm), Nat.zero_add]
      · rw [if_neg hm, if_neg (fun h => hc (((List.mem_cons.mp h).resolve_right hm)).symm),
          Nat.zero_add]

theorem filter_roadBlock_key (t : Table) (vt : String) {s e : Int} (ex : List Int)
    (r' : String) {r : String} {y : Int} (h1 : s ≤ y) (h2 : y ≤ e) :
    (roadBlock t vt s e ex r').filter (fun p => p.1 == r && p.2.1 == y) =
      if r' = r then [(r, y, interpAt (rawSeries t vt s e ex r) (y - s).toNat)] else [] := by
  rw [roadBlock_eq, List.filter_map]
  by_cases hr' : r' = r
  · subst hr'
    have hk0 : (y - s).toNat ∈ List.range ((e + 1 - s).toNat) :=
      List.mem_range.mpr (by omega)
    have hcongr : ∀ k ∈ List.range ((e + 1 - s).toNat),
        ((fun p => p.1 == r' && p.2.1 == y) ∘
          (fun (k : Nat) => (r', s + (k : Int), interpAt (rawSeries t vt s e ex r') k))) k
          = (k == (y - s).toNat) := by
      intro k hk
      have hkn := List.mem_range.mp hk
      simp only [Function.comp]
      rw [Bool.eq_iff_iff]
      simp only [Bool.and_eq_true, beq_iff_eq, beq_self_eq_true, true_and]
      omega
    rw [List.filter_congr hcongr, filter_beq_of_nodup (List.nodup_range _) hk0]
    simp only [List.map_cons, List.map_nil]
    rw [if_pos trivial, show s + (((y - s).toNat : Nat) : Int) = y from by omega]
  · have hcongr : ∀ k ∈ List.range ((e + 1 - s).toNat),
        ((fun p => p.1 == r && p.2.1 == y) ∘
          (fun (k : Nat) => (r', s + (k : Int), interpAt (rawSeries t vt s e ex r') k))) k
          = (fun (_ : Nat) => false) k := by
      intro k _
      simp only [Function.comp]
      rw [beq_eq_false_iff_ne.mpr hr', Bool.false_and]
    rw [List.filter_congr hcongr, List.filter_false, List.map_nil, if_neg hr']

theorem valueAt_buildRows (t : Table) (vt : String) {s e : Int} (ex : List Int)
    {r : String} {y : Int} (hr : r ∈ roadNames t) (h1 : s ≤ y) (h2 : y ≤ e) :
    valueAt (buildRows t vt s e ex) r y =
      some (interpAt (rawSeries t vt s e ex r) (y - s).toNat) := by
  rw [valueAt, buildRows, filter_flatMap_comm]
  rw [show (fun r' => (roadBlock t vt s e ex r').filter (fun p => p.1 == r && p.2.1 == y))
      = (fun r' => if r' = r
          then [(r, y, interpAt (rawSeries t vt s e ex r) (y - s).toNat)] else [])
    from funext (fun r' => filter_roadBlock_key t vt ex r' h1 h2)]
  rw [flatMap_eq_of_single (roadNames_nodup t) hr (fun b _ hb => if_neg hb), if_pos rfl]
  rfl

theorem countP_roadBlock_key (t : Table) (vt : String) {s e : Int} (ex : List Int)
    (r' : String) {r : String} {y : Int} :
    (roadBlock t vt s e ex r').countP (fun p => p.1 == r && p.2.1 == y) =
      if r' = r ∧ s ≤ y ∧ y ≤ e then 1 else 0 := by
  rw [roadBlock_eq, List.countP_map]
  by_cases hr' : r' = r
  · subst hr'
    by_cases hy : s ≤ y ∧ y ≤ e
    · have hcongr : ∀ k ∈ List.range ((e + 1 - s).toNat),
          ((fun p => p.1 == r' && p.2.1 == y) ∘
            (fun (k : Nat) => (r', s + (k : Int), interpAt (rawSeries t vt s e ex r') k))) k
            = (k == (y - s).toNat) := by
        intro k hk
        have hkn := List.mem_range.mp hk
        simp only [Function.comp]
        rw [Bool.eq_iff_iff]
        simp only [Bool.and_eq_true, beq_iff_eq, beq_self_eq_true, true_and]
        omega
      rw [List.countP_congr (fun k hk => Bool.eq_iff_iff.mp (hcongr k hk)),
        countP_range_beq, if_pos (by omega), if_pos (And.intro rfl hy)]
    · have hcongr : ∀ k ∈ List.range ((e + 1 - s).toNat),
          ((fun p => p.1 == r' && p.2.1 == y) ∘
            (fun (k : Nat) => (r', s + (k : Int), interpAt (rawSeries t vt s e ex r') k))) k
            = (fun (_ : Nat) => false) k := by
        intro k hk
        have hkn := List.mem_range.mp hk
        simp only [Function.comp]
        rw [Bool.eq_iff_iff]
        simp only [Bool.and_eq_true, beq_iff_eq, beq_self_eq_true, true_and,
          Bool.false_eq_true, iff_false]
        omega
      rw [List.countP_congr (fun k hk => Bool.eq_iff_iff.mp (hcongr k hk)),
        if_neg (fun h => hy h.2)]
      exact congrFun List.countP_false _
  · have hcongr : ∀ k ∈ List.range ((e + 1 - s).toNat),
        ((fun p => p.1 == r && p.2.1 == y) ∘
          (fun (k : Nat) => (r', s + (k : Int), interpAt (rawSeries t vt s e ex r') k))) k
          = (fun (_ : Nat) => false) k := by
      intro k _
      simp only [Function.comp]
      rw [beq_eq_false_iff_ne.mpr hr', Bool.false_and]
    rw [List.countP_congr (fun k hk => Bool.eq_iff_iff.mp (hcongr k hk)),
      if_neg (fun h => hr' h.1)]
    exact congrFun List.countP_false _

theorem present_mem_roadNames {t : Table} {r : String} {y : Int}
    (h : present t r y = true) : r ∈ roadNames t := by
  rw [mem_roadNames, List.mem_map]
  rw [present, Bool.not_eq_true'] at h
  have hne : rowsFor t r y ≠ [] := by
    intro hnil
    rw [hnil] at h
    cases h
  obtain ⟨w, hw⟩ := List.exists_mem_of_ne_nil _ hne
  simp only [rowsFor] at hw
  have hw2 := List.mem_filter.mp hw
  refine ⟨w, hw2.1, ?_⟩
  have hkey := hw2.2
  simp only [Bool.and_eq_true, beq_iff_eq] at hkey
  exact hkey.1

theorem rawSeries_tableA1 :
    rawSeries tableA1 "v" 2000 2001 [] "A" = [some (1/5), none] := by
  norm_num +decide [rawSeries, ratioOf, sumCol, rowsFor, Row.get, tableA1, List.lookup,
    show yearsIn 2000 2001 = [2000, 2001] from by decide,
    show present tableA1 "A" 2000 = true from by decide,
    show present tableA1 "A" 2001 = false from by decide,
    show ("total_vehicles" == "v") = false from by decide]

/-! ## The claimed properties -/

/-- C1: for every input table, vehicle type, year range and exclusion list,
the builder output has exactly `(end_year - start_year + 1) * |observed road
names|` rows: one row for each pair of an observed road name and a year of
`start_year..end_year`, with no pair missing and no pair duplicated. -/
theorem ratio_series_complete_grid (t : Table) (vt : String) (s e : Int) (ex : List Int)
    (hse : s ≤ e) :
    (buildRows t vt s e ex).length = (e - s + 1).toNat * (roadNames t).length ∧
    ∀ (r : String) (y : Int),
      (buildRows t vt s e ex).countP (fun p => p.1 == r && p.2.1 == y) =
        if r ∈ roadNames t ∧ s ≤ y ∧ y ≤ e then 1 else 0 := by
  constructor
  · rw [buildRows, List.length_flatMap]
    have hmap : (roadNames t).map (List.length ∘ fun r => roadBlock t vt s e ex r)
        = (roadNames t).map (Function.const String ((e + 1 - s).toNat)) :=
      List.map_congr_left (fun a _ => roadBlock_length t vt s e ex a)
    rw [hmap, List.map_const, List.sum_replicate, smul_eq_mul,
      show (e - s + 1).toNat = (e + 1 - s).toNat from by omega, Nat.mul_comm]
  · intro r y
    rw [buildRows, countP_flatMap_sum]
    have hmap : (roadNames t).map (fun r' => (roadBlock t vt s e ex r').countP
        (fun p => p.1 == r && p.2.1 == y))
        = (roadNames t).map (fun r' => if r' = r ∧ s ≤ y ∧ y ≤ e then 1 else 0) :=
      List.map_congr_left (fun a _ => countP_roadBlock_key t vt ex a)
    rw [hmap]
    by_cases hy : s ≤ y ∧ y ≤ e
    · have hmap2 : (roadNames t).map (fun r' => if r' = r ∧ s ≤ y ∧ y ≤ e then 1 else 0)
          = (roadNames t).map (fun r' => if r' = r then 1 else 0) := by
        refine List.map_congr_left (fun a _ => ?_)
        by_cases ha : a = r
        · rw [if_pos ⟨ha, hy⟩, if_pos ha]
        · rw [if_neg (fun h => ha h.1), if_neg ha]
      rw [hmap2, sum_map_ite_one (roadNames_nodup t) r]
      by_cases hr : r ∈ roadNames t
      · rw [if_pos hr, if_pos ⟨hr, hy⟩]
      · rw [if_neg hr, if_neg (fun h => hr h.1)]
    · have hmap2 : (roadNames t).map (fun r' => if r' = r ∧ s ≤ y ∧ y ≤ e then 1 else 0)
          = (roadNames t).map (fun (_ : String) => (0 : Nat)) :=
        List.map_congr_left (fun a _ => if_neg (fun h => hy h.2))
      rw [hmap2, if_neg (fun h => hy h.2)]
      exact List.sum_eq_zero (fun x hx => by
        obtain ⟨a, _, rfl⟩ := List.mem_map.mp hx
        rfl)

/-- Witness for C1 at a concrete input. -/
theorem ratio_series_complete_grid_witness :
    (2000 : Int) ≤ 2002 ∧
    (buildRows tableA3 "v" 2000 2002 []).length =
      ((2002 : Int) - 2000 + 1).toNat * (roadNames tableA3).length :=
  ⟨by decide, (ratio_series_complete_grid tableA3 "v" 2000 2002 [] (by decide)).1⟩

/-- C8: requesting a `vehicle_type` column that the input table does not
have fails immediately with the missing-column error; no row list is
returned. -/
theorem missing_column_error (t : Table) (vt : String) (s e : Int) (ex : List Int)
    (h : vt ∉ t.cols) :
    build t vt s e ex = Except.error "MissingColumn" := by
  rw [build, if_neg (fun hc => h hc.1)]

/-- Witness for C8 at a concrete input. -/
theorem missing_column_error_witness :
    build tableA3 "w" 2000 2002 [] = Except.error "MissingColumn" :=
  missing_column_error tableA3 "w" 2000 2002 [] (by decide)

/-- C9: a degenerate request — `start_year > end_year`, or an input table
with no road names — succeeds with an empty row list instead of failing. -/
theorem degenerate_range_empty (t : Table) (vt : String) (s e : Int) (ex : List Int)
    (hc : vt ∈ t.cols ∧ "total_vehicles" ∈ t.cols)
    (hd : e < s ∨ roadNames t = []) :
    build t vt s e ex = Except.ok [] := by
  rw [build, if_pos hc]
  congr 1
  rcases hd with hd | hd
  · rw [buildRows]
    refine List.flatMap_eq_nil_iff.mpr (fun r _ => ?_)
    rw [roadBlock_eq, show (e + 1 - s).toNat = 0 from by omega]
    rfl
  · rw [buildRows, hd]
    rfl

/-- Witness for C9 at a concrete input. -/
theorem degenerate_range_empty_witness :
    build tableA3 "v" 2005 2004 [] = Except.ok [] :=
  degenerate_range_empty tableA3 "v" 2005 2004 [] (by decide) (Or.inl (by decide))

/-- C10: the builder is a pure function of its inputs: structurally equal
input tables and identical parameters give identical outputs, and — the
embedding being functional — no call mutates the input table. -/
theorem builder_deterministic (t t' : Table) (vt : String) (s e : Int) (ex : List Int)
    (hc : t.cols = t'.cols) (hr : t.rows = t'.rows) :
    build t vt s e ex = build t' vt s e ex := by
  obtain ⟨tc, tr⟩ := t
  obtain ⟨tc', tr'⟩ := t'
  cases hc
  cases hr
  rfl

/-- Witness for C10 at a concrete input. -/
theorem builder_deterministic_witness :
    build tableA3 "v" 2000 2002 [2001] = build tableA3 "v" 2000 2002 [2001] :=
  builder_deterministic tableA3 tableA3 "v" 2000 2002 [2001] rfl rfl

/-- C7: if the first year of the range is absent for a road group (no data
for it and/or it is excluded) while a later year in range has a known value,
the first year's ratio stays absent in the output: interpolation never fills
backward past the earliest known value. -/
theorem no_backward_fill (t : Table) (vt : String) (s e : Int) (ex : List Int) (r : String)
    (hr : r ∈ roadNames t) (hse : s ≤ e)
    (habs : present t r s = false ∨ s ∈ ex)
    (hlater : ∃ y, s < y ∧ y ≤ e ∧ present t r y = true ∧ y ∉ ex) :
    valueAt (buildRows t vt s e ex) r s = some none := by
  rw [valueAt_buildRows t vt ex hr le_rfl hse, show (s - s).toNat = 0 from by omega]
  have hx : (rawSeries t vt s e ex r)[0]? = some none := by
    rw [rawSeries_getElem? (show 0 < (e + 1 - s).toNat from by omega)]
    simp only [Nat.cast_zero, add_zero]
    rcases habs with hp | hp
    · simp [hp]
    · simp [hp]
  rw [interpAt_gap hx, prevKnown_zero]

/-- Witness for C7 at a concrete input. -/
theorem no_backward_fill_witness :
    valueAt (buildRows tableA1 "v" 1999 2000 []) "A" 1999 = some none :=
  no_backward_fill tableA1 "v" 1999 2000 [] "A" (by decide) (by decide)
    (Or.inl (by decide)) ⟨2000, by decide, by decide, by decide, by decide⟩

/-- C2 counterexample: for road "A" with data only at year 2000 and range
2000..2001, year 2001 is a trailing gap with no later known neighbour, yet
the built output holds a (forward-filled) value there — "remains absent"
fails at the trailing extreme. -/
theorem no_extrapolation_cex :
    present tableA1 "A" 2001 = false ∧
    valueAt (buildRows tableA1 "v" 2000 2001 []) "A" 2001 ≠ some none := by
  refine ⟨by decide, ?_⟩
  rw [valueAt_buildRows tableA1 "v" ([] : List Int) (by decide) (by decide) (by decide),
    show ((2001 : Int) - 2000).toNat = 1 from by decide, rawSeries_tableA1]
  have hval : interpAt [some ((1 : ℚ)/5), none] 1 = some (1/5) := by
    norm_num [interpAt, prevKnown, nextKnown, knownAt,
      show List.range 1 = [0] from by decide]
  rw [hval]
  simp

/-- C2 (amended): an absent ratio at the leading extreme of a road group
(no earlier known value) stays absent, but an absent ratio at the trailing
extreme (no later known value) is forward-filled with the group's last known
value — the builder does extrapolate forward, copying the last known ratio. -/
theorem edge_gap_forward_fill (t : Table) (vt : String) (s e : Int) (ex : List Int)
    (r : String) (k : Nat)
    (hk : (rawSeries t vt s e ex r)[k]? = some none)
    (hafter : ∀ j, k < j → ((rawSeries t vt s e ex r)[j]?).getD none = none) :
    (interpSeries (rawSeries t vt s e ex r))[k]? =
      some ((prevKnown (rawSeries t vt s e ex r) k).map Prod.snd) := by
  have hklen : k < (rawSeries t vt s e ex r).length := by
    by_contra hcon
    rw [List.getElem?_eq_none (Nat.le_of_not_lt hcon)] at hk
    cases hk
  rw [interpSeries_getElem? hklen]
  congr 1
  rw [interpAt_gap hk, nextKnown_eq_none hafter]
  cases hp : prevKnown (rawSeries t vt s e ex r) k with
  | none => rfl
  | some z => cases z with | mk i a => rfl

/-- Witness for the amended C2 at a concrete input. -/
theorem edge_gap_forward_fill_witness :
    (interpSeries (rawSeries tableA1 "v" 2000 2001 [] "A"))[1]? =
      some ((prevKnown (rawSeries tableA1 "v" 2000 2001 [] "A") 1).map Prod.snd) := by
  refine edge_gap_forward_fill tableA1 "v" 2000 2001 [] "A" 1 ?_ ?_
  · rw [rawSeries_tableA1]
    rfl
  · intro j hj
    rw [rawSeries_tableA1, List.getElem?_eq_none (by simp; omega)]
    rfl

/-- C3: for any input whose summed data gives road "A" the ratio 1/10 at
year 2000 and 3/10 at year 2002, with year 2001 excluded and the range
covering 2000..2002, the builder returns exactly 1/5 for road "A" at 2001 —
the linear interpolation of the two neighbouring known pairs. -/
theorem interpolation_linear_check (t : Table) (vt : String) (s e : Int) (ex : List Int)
    (hs : s ≤ 2000) (he : 2002 ≤ e)
    (hex1 : (2001 : Int) ∈ ex) (hex0 : (2000 : Int) ∉ ex) (hex2 : (2002 : Int) ∉ ex)
    (hp0 : present t "A" 2000 = true) (hp2 : present t "A" 2002 = true)
    (hr0 : ratioOf t vt "A" 2000 = 1/10) (hr2 : ratioOf t vt "A" 2002 = 3/10) :
    valueAt (buildRows t vt s e ex) "A" 2001 = some (some (1/5)) := by
  have hmem : "A" ∈ roadNames t := present_mem_roadNames hp0
  obtain ⟨m, hm⟩ : ∃ m : Nat, ((2001 : Int) - s).toNat = m + 1 :=
    ⟨((2001 : Int) - s).toNat - 1, by omega⟩
  rw [valueAt_buildRows t vt ex hmem (by omega) (by omega), hm]
  have hx1 : (rawSeries t vt s e ex "A")[m + 1]? = some none := by
    rw [rawSeries_getElem? (show m + 1 < (e + 1 - s).toNat from by omega),
      show s + ((m + 1 : Nat) : Int) = 2001 from by omega]
    simp [hex1]
  have hx0 : knownAt (rawSeries t vt s e ex "A") m = some (m, 1/10) := by
    unfold knownAt
    rw [rawSeries_getElem? (show m < (e + 1 - s).toNat from by omega),
      show s + ((m : Nat) : Int) = 2000 from by omega]
    simp [hex0, hp0, hr0]
  have hx2 : knownAt (rawSeries t vt s e ex "A") (m + 2) = some (m + 2, 3/10) := by
    unfold knownAt
    rw [rawSeries_getElem? (show m + 2 < (e + 1 - s).toNat from by omega),
      show s + ((m + 2 : Nat) : Int) = 2002 from by omega]
    simp [hex2, hp2, hr2]
  have hprev : prevKnown (rawSeries t vt s e ex "A") (m + 1) = some (m, 1/10) :=
    prevKnown_succ_of_known hx0
  have hnext : nextKnown (rawSeries t vt s e ex "A") (m + 1) = some (m + 2, 3/10) := by
    refine nextKnown_succ_of_known ?_ hx2
    rw [rawSeries_length]
    omega
  rw [interpAt_gap hx1, hprev, hnext]
  congr 1
  push_cast
  ring_nf

/-- Witness for C3 at a concrete input. -/
theorem interpolation_linear_check_witness :
    valueAt (buildRows tableA3 "v" 2000 2002 [2001]) "A" 2001 = some (some (1/5)) := by
  refine interpolation_linear_check tableA3 "v" 2000 2002 [2001] (by decide) (by decide)
    (by decide) (by decide) (by decide) (by decide) (by decide) ?_ ?_
  · norm_num +decide [ratioOf, sumCol, rowsFor, Row.get, tableA3, List.lookup,
      show ("total_vehicles" == "v") = false from by decide]
  · norm_num +decide [ratioOf, sumCol, rowsFor, Row.get, tableA3, List.lookup,
      show ("total_vehicles" == "v") = false from by decide]

/-- C5: the pre-interpolation ratio of every present (road, year) group is
the group's summed vehicle-type count divided by its summed total, rows
sharing the pair being summed before dividing; concretely a 40-of-200 group
yields exactly 1/5, and two rows of 10-of-100 and 15-of-150 yield exactly
25/250 = 1/10. -/
theorem grouped_ratio_sums :
    (∀ (t : Table) (vt : String) (s e : Int) (ex : List Int) (r : String) (y : Int),
      s ≤ y → y ≤ e → y ∉ ex → present t r y = true →
      (rawSeries t vt s e ex r)[((y - s).toNat)]? =
        some (some (sumCol t vt r y / sumCol t "total_vehicles" r y))) ∧
    valueAt (buildRows tableB "v" 2010 2010 []) "B" 2010 = some (some (1/5)) ∧
    valueAt (buildRows tableC "v" 2015 2015 []) "C" 2015 = some (some (1/10)) := by
  refine ⟨?_, ?_, ?_⟩
  · intro t vt s e ex r y h1 h2 hex hp
    rw [rawSeries_getElem? (show (y - s).toNat < (e + 1 - s).toNat from by omega),
      show s + (((y - s).toNat : Nat) : Int) = y from by omega]
    simp [hex, hp, ratioOf]
  · rw [valueAt_buildRows tableB "v" ([] : List Int) (by decide) (by decide) (by decide),
      show ((2010 : Int) - 2010).toNat = 0 from by decide]
    have hx : (rawSeries tableB "v" 2010 2010 [] "B")[0]? = some (some (1/5)) := by
      norm_num +decide [rawSeries, ratioOf, sumCol, rowsFor, Row.get, tableB, List.lookup,
        show yearsIn 2010 2010 = [2010] from by decide,
        show present tableB "B" 2010 = true from by decide,
        show ("total_vehicles" == "v") = false from by decide]
    rw [interpAt_known hx]
  · rw [valueAt_buildRows tableC "v" ([] : List Int) (by decide) (by decide) (by decide),
      show ((2015 : Int) - 2015).toNat = 0 from by decide]
    have hx : (rawSeries tableC "v" 2015 2015 [] "C")[0]? = some (some (1/10)) := by
      norm_num +decide [rawSeries, ratioOf, sumCol, rowsFor, Row.get, tableC, List.lookup,
        show yearsIn 2015 2015 = [2015] from by decide,
        show present tableC "C" 2015 = true from by decide,
        show ("total_vehicles" == "v") = false from by decide]
    rw [interpAt_known hx]

/-- Witness for C5 at a concrete input. -/
theorem grouped_ratio_sums_witness :
    (rawSeries tableB "v" 2010 2010 [] "B")[(((2010 : Int) - 2010).toNat)]? =
      some (some (sumCol tableB "v" "B" 2010 / sumCol tableB "total_vehicles" "B" 2010)) :=
  grouped_ratio_sums.1 tableB "v" 2010 2010 [] "B" 2010 (by decide) (by decide)
    (by decide) (by decide)

theorem map_road_of_forall₂ {ex : List Int} {l l' : List Row}
    (h : List.Forall₂ (fun a b => a.road_name = b.road_name ∧ a.year = b.year ∧
      (a.year ∉ ex → a.cells = b.cells)) l l') :
    l.map Row.road_name = l'.map Row.road_name := by
  induction h with
  | nil => rfl
  | cons hab htail ih => rw [List.map_cons, List.map_cons, hab.1, ih]

theorem filter_keys_of_forall₂ {ex : List Int} {l l' : List Row} {r : String} {y : Int}
    (hy : y ∉ ex)
    (h : List.Forall₂ (fun a b => a.road_name = b.road_name ∧ a.year = b.year ∧
      (a.year ∉ ex → a.cells = b.cells)) l l') :
    l.filter (fun w => w.road_name == r && w.year == y) =
      l'.filter (fun w => w.road_name == r && w.year == y) := by
  induction h with
  | nil => rfl
  | @cons a b l1 l2 hab htail ih =>
    obtain ⟨hroad, hyear, hcells⟩ := hab
    have hpred : (b.road_name == r && b.year == y) = (a.road_name == r && a.year == y) := by
      rw [hroad, hyear]
    rw [List.filter_cons, List.filter_cons, hpred]
    by_cases hk : (a.road_name == r && a.year == y) = true
    · have hay : a.year = y := by
        simp only [Bool.and_eq_true, beq_iff_eq] at hk
        exact hk.2
      have hcells' := hcells (hay ▸ hy)
      have hab2 : a = b := by
        cases a
        cases b
        simp only [Row.mk.injEq]
        exact ⟨hroad, hyear, hcells'⟩
      rw [if_pos hk, if_pos hk, ih, hab2]
    · rw [if_neg hk, if_neg hk]
      exact ih

theorem rawSeries_congr_excluded {t t' : Table} (vt : String) (s e : Int) (ex : List Int)
    (r : String)
    (hrel : List.Forall₂ (fun a b => a.road_name = b.road_name ∧ a.year = b.year ∧
      (a.year ∉ ex → a.cells = b.cells)) t.rows t'.rows) :
    rawSeries t vt s e ex r = rawSeries t' vt s e ex r := by
  refine List.map_congr_left (fun y _ => ?_)
  by_cases hex : y ∈ ex
  · simp [hex]
  · have hrws : rowsFor t r y = rowsFor t' r y := filter_keys_of_forall₂ hex hrel
    simp [hex, present, ratioOf, sumCol, hrws]

/-- C4: cell values at excluded years never influence the output: the series
handed to interpolation is absent at every excluded year of the range, and
two inputs with the same row skeleton that differ only in the cells of
excluded-year rows build identical outputs — the raw summed ratio of an
excluded year is discarded before interpolation. -/
theorem excluded_years_discarded (t t' : Table) (vt : String) (s e : Int) (ex : List Int)
    (hcols : t.cols = t'.cols)
    (hrel : List.Forall₂ (fun a b => a.road_name = b.road_name ∧ a.year = b.year ∧
      (a.year ∉ ex → a.cells = b.cells)) t.rows t'.rows) :
    (∀ (r : String) (k : Nat) (y : Int), (yearsIn s e)[k]? = some y → y ∈ ex →
        (rawSeries t vt s e ex r)[k]? = some none) ∧
    build t vt s e ex = build t' vt s e ex := by
  constructor
  · intro r k y hk hex
    rw [rawSeries, List.getElem?_map, hk]
    simp [hex]
  · have hroads : roadNames t = roadNames t' := by
      rw [roadNames, roadNames, map_road_of_forall₂ hrel]
    have hblocks : ∀ r, roadBlock t vt s e ex r = roadBlock t' vt s e ex r := by
      intro r
      rw [roadBlock, roadBlock, rawSeries_congr_excluded vt s e ex r hrel]
    rw [build, build, hcols]
    by_cases hc : vt ∈ t'.cols ∧ "total_vehicles" ∈ t'.cols
    · rw [if_pos hc, if_pos hc]
      congr 1
      rw [buildRows, buildRows, hroads,
        show (fun r => roadBlock t vt s e ex r) = (fun r => roadBlock t' vt s e ex r)
          from funext hblocks]
    · rw [if_neg hc, if_neg hc]

/-- Witness for C4 at a concrete input. -/
theorem excluded_years_discarded_witness :
    build tableA3 "v" 2000 2002 [2001] = build tableA3' "v" 2000 2002 [2001] := by
  refine (excluded_years_discarded tableA3 tableA3' "v" 2000 2002 [2001] rfl ?_).2
  refine List.Forall₂.cons ⟨rfl, rfl, fun _ => rfl⟩ ?_
  refine List.Forall₂.cons ⟨rfl, rfl, fun hn => absurd (by decide) hn⟩ ?_
  exact List.Forall₂.cons ⟨rfl, rfl, fun _ => rfl⟩ List.Forall₂.nil

theorem mem_roadNames_iff_filter {t : Table} {r : String} :
    r ∈ roadNames t ↔ t.rows.filter (fun w => w.road_name == r) ≠ [] := by
  rw [mem_roadNames, List.mem_map]
  constructor
  · rintro ⟨w, hw, rfl⟩
    intro hnil
    have hmemf : w ∈ t.rows.filter (fun w' => w'.road_name == w.road_name) :=
      List.mem_filter.mpr ⟨hw, by simp⟩
    rw [hnil] at hmemf
    cases hmemf
  · intro hne
    obtain ⟨w, hw⟩ := List.exists_mem_of_ne_nil _ hne
    have h2 := List.mem_filter.mp hw
    exact ⟨w, h2.1, by simpa using h2.2⟩

theorem rowsFor_eq_filter (t : Table) (r : String) (y : Int) :
    rowsFor t r y =
      (t.rows.filter (fun w => w.road_name == r)).filter (fun w => w.year == y) := by
  rw [rowsFor, List.filter_filter]
  exact List.filter_congr (fun w _ => by rw [Bool.and_comm])

theorem rawSeries_congr_road {t t' : Table} (vt : String) (s e : Int) (ex : List Int)
    {r : String}
    (h : t.rows.filter (fun w => w.road_name == r) =
      t'.rows.filter (fun w => w.road_name == r)) :
    rawSeries t vt s e ex r = rawSeries t' vt s e ex r := by
  have hrws : ∀ y, rowsFor t r y = rowsFor t' r y := fun y => by
    rw [rowsFor_eq_filter, rowsFor_eq_filter, h]
  refine List.map_congr_left (fun y _ => ?_)
  by_cases hex : y ∈ ex
  · simp [hex]
  · simp [hex, present, ratioOf, sumCol, hrws y]

theorem filter_roadBlock_road (t : Table) (vt : String) (s e : Int) (ex : List Int)
    (r' r : String) :
    (roadBlock t vt s e ex r').filter (fun p => p.1 == r) =
      if r' = r then roadBlock t vt s e ex r' else [] := by
  by_cases hr' : r' = r
  · rw [if_pos hr']
    refine List.filter_eq_self.mpr (fun p hp => ?_)
    rw [roadBlock_eq] at hp
    obtain ⟨k, _, rfl⟩ := List.mem_map.mp hp
    simp [hr']
  · rw [if_neg hr']
    refine List.filter_eq_nil_iff.mpr (fun p hp => ?_)
    rw [roadBlock_eq] at hp
    obtain ⟨k, _, rfl⟩ := List.mem_map.mp hp
    simp [hr']

/-- C6: output for one road depends only on that road's input rows: two
input tables that agree on all rows with road name `r` produce identical
output rows for `r`, however their rows for other roads differ —
interpolation never crosses road groups. -/
theorem road_groups_independent (t t' : Table) (vt : String) (s e : Int) (ex : List Int)
    (r : String)
    (h : t.rows.filter (fun w => w.road_name == r) =
      t'.rows.filter (fun w => w.road_name == r)) :
    (buildRows t vt s e ex).filter (fun p => p.1 == r) =
      (buildRows t' vt s e ex).filter (fun p => p.1 == r) := by
  have hraw : rawSeries t vt s e ex r = rawSeries t' vt s e ex r :=
    rawSeries_congr_road vt s e ex h
  have hblock : roadBlock t vt s e ex r = roadBlock t' vt s e ex r := by
    rw [roadBlock, roadBlock, hraw]
  have hmem : r ∈ roadNames t ↔ r ∈ roadNames t' := by
    rw [mem_roadNames_iff_filter, mem_roadNames_iff_filter, h]
  rw [buildRows, buildRows, filter_flatMap_comm, filter_flatMap_comm,
    show (fun r' => (roadBlock t vt s e ex r').filter (fun p => p.1 == r))
      = (fun r' => if r' = r then roadBlock t vt s e ex r' else [])
      from funext (fun r' => filter_roadBlock_road t vt s e ex r' r),
    show (fun r' => (roadBlock t' vt s e ex r').filter (fun p => p.1 == r))
      = (fun r' => if r' = r then roadBlock t' vt s e ex r' else [])
      from funext (fun r' => filter_roadBlock_road t' vt s e ex r' r)]
  by_cases hr : r ∈ roadNames t
  · rw [flatMap_eq_of_single (roadNames_nodup t) hr (fun b _ hb => if_neg hb),
      flatMap_eq_of_single (roadNames_nodup t') (hmem.mp hr) (fun b _ hb => if_neg hb),
      if_pos rfl, if_pos rfl, hblock]
  · have h1 : ∀ b ∈ roadNames t, (if b = r then roadBlock t vt s e ex b else []) = [] := by
      intro b hb
      have hbr : b ≠ r := fun hbr => hr (hbr ▸ hb)
      rw [if_neg hbr]
    have h2 : ∀ b ∈ roadNames t', (if b = r then roadBlock t' vt s e ex b else []) = [] := by
      intro b hb
      have hbr : b ≠ r := fun hbr => hr (hmem.mpr (hbr ▸ hb))
      rw [if_neg hbr]
    rw [List.flatMap_eq_nil_iff.mpr h1, List.flatMap_eq_nil_iff.mpr h2]

/-- Witness for C6 at a concrete input. -/
theorem road_groups_independent_witness :
    (buildRows tableAB "v" 2000 2001 []).filter (fun p => p.1 == "A") =
      (buildRows tableAB' "v" 2000 2001 []).filter (fun p => p.1 == "A") :=
  road_groups_independent tableAB tableAB' "v" 2000 2001 [] "A" (by decide)

end PigModule
